import Mathlib

/-!
Verification development for the partner-deal-registration backend.

The backend treats a header-indexed tabular store (Google Sheets) as a
lightweight database.  This file gives a shallow embedding of the store
adapter (`findRowByValue`, append, update-row-by-position, id/timestamp
generation), the deal controller (`createDeal`, `checkDuplicateDeals`,
`createOrFindCustomer`, `getEstimatedApprovalTime`) and the admin routes
(`requireAdmin`, approve, reject), and proves properties of the deal
lifecycle, the duplicate detector and the store adapter.

Nondeterministic effects are embedded explicitly: the id generator and
the clock are driven by a fresh-counter threaded through the state, and
a fallible table read is an `Except` value passed to the reader.
-/

namespace DealReg

/-- A sheet row: a list of string cells. -/
abbrev Row := List String

/-- A sheet: the first row, when present, is the header row. -/
abbrev Table := List Row

/-- JS `row[i] || ''` for a nonnegative index: missing cells read as `""`. -/
def cellD (row : Row) (i : Nat) : String :=
  row.getD i ""

/-- JS `row[i] || ''` where `i` may be `-1` (a failed `indexOf`). -/
def cellI (row : Row) (i : Int) : String :=
  if i < 0 then "" else cellD row i.toNat

/-- JS `row[i]` without a default: `none` models `undefined`. -/
def cellAt (row : Row) (i : Nat) : Option String :=
  row.get? i

/-- JS `Array.prototype.indexOf`, returning the first index or `none`. -/
def idxOfN (l : List String) (s : String) : Option Nat :=
  match l with
  | [] => none
  | a :: t =>
    if a = s then some 0
    else match idxOfN t s with
      | some n => some (n + 1)
      | none => none

/-- JS `Array.prototype.indexOf`, returning `-1` when absent. -/
def idxOf (l : List String) (s : String) : Int :=
  match idxOfN l s with
  | some n => (n : Int)
  | none => -1

/-- JS assignment `row[i] = v`: in-range writes overwrite, writes past the
end extend the array (holes read back as `""`), negative indices leave the
cells of the array unchanged. -/
def setCell (row : Row) (i : Int) (v : String) : Row :=
  if i < 0 then row
  else if i.toNat < row.length then row.set i.toNat v
  else row ++ List.replicate (i.toNat - row.length) "" ++ [v]

/-- A named record built from a row and the header row, as the JS code
builds `{header: row[index] || ''}` objects. -/
abbrev Rcd := List (String × String)

/-- `headers.forEach((header, index) => obj[header] = row[index] || '')`,
keeping the header order and the cell index. -/
def toRecordAux (headers : List String) (i : Nat) (row : Row) : Rcd :=
  match headers with
  | [] => []
  | h :: t => (h, cellD row i) :: toRecordAux t (i + 1) row

/-- Convert a row to a named record using the header row as schema. -/
def toRecord (headers : List String) (row : Row) : Rcd :=
  toRecordAux headers 0 row

/-- JS property lookup on an object built by successive assignments:
a later assignment to the same key wins; an absent key reads as `""`. -/
def getField (r : Rcd) (k : String) : String :=
  r.foldl (fun acc p => if p.1 = k then p.2 else acc) ""

/-- Scan of the data rows of `findRowByValue`: `pos` is the 1-based sheet
position of the current row (the first data row has position 2).  The JS
comparison `data[i][columnIndex] === searchValue` has no `|| ''` default,
so a missing cell never matches. -/
def findRowAux (headers : List String) (ci : Nat) (rows : List Row)
    (v : String) (pos : Nat) : Option (Rcd × Nat) :=
  match rows with
  | [] => none
  | r :: t =>
    if cellAt r ci = some v then some (toRecord headers r, pos)
    else findRowAux headers ci t v (pos + 1)

/-- `googleSheetsService.findRowByValue(sheet, searchColumn, searchValue)`:
returns the first data row whose cell in the search column equals the
value, as a named record together with its attached `_rowIndex`
(1-based sheet position; the header row is position 1). -/
def findRowByValue (t : Table) (col v : String) : Option (Rcd × Nat) :=
  match t with
  | [] => none
  | headers :: rows =>
    match idxOfN headers col with
    | none => none
    | some ci => findRowAux headers ci rows v 2

/-- `updateRow(sheet, rowIndex, values)`: overwrite the row at the given
1-based sheet position. -/
def updateRowAt (t : Table) (pos : Nat) (row : Row) : Table :=
  t.set (pos - 1) row

/-- `generateId()` from a fresh counter (the JS token is time+random;
only freshness matters to the logic). -/
def genId (n : Nat) : String :=
  "ID_" ++ toString n

/-- `getCurrentTimestamp()` / `new Date().toISOString()` from the same
fresh counter. -/
def tsOf (n : Nat) : String :=
  "TS_" ++ toString n

/-- The whole backing store plus the fresh counter driving id and
timestamp generation. -/
structure DB where
  deals : Table
  customers : Table
  auditLog : Table
  admins : Table
  fresh : Nat
deriving Repr, DecidableEq

/-- The header row of the `Deals` sheet, in the column order the deal
controller writes rows (`createDeal`'s `dealData` comments), with the
`rejection_reason` column the reject route addresses appended after it. -/
def dealsHeader : List String :=
  ["id", "partner_id", "customer_id", "submitter_id", "status",
   "partner_company", "submitter_name", "submitter_email", "territory",
   "company_name", "domain", "customer_legal_name", "customer_industry",
   "customer_location", "deal_stage", "expected_close_date", "deal_value",
   "contract_type", "primary_product", "additional_notes", "uploaded_files",
   "agreed_to_terms", "duplicate_score", "potential_duplicates",
   "approved_by", "approved_at", "created_at", "updated_at",
   "rejection_reason"]

/-- The header row of the `Customers` sheet, in the column order
`createOrFindCustomer` writes rows. -/
def customersHeader : List String :=
  ["id", "company_name", "domain", "legal_name", "industry", "location",
   "country", "created_at", "updated_at"]

/-- The header row of the `Audit_Log` sheet, in the column order the
approve/reject routes write entries. -/
def auditHeader : List String :=
  ["id", "deal_id", "actor_email", "action", "timestamp", "note"]

/-- The header row of the `Admins` sheet (the dynamic AdminEntry
registry). -/
def adminsHeader : List String :=
  ["email", "added_by", "added_at", "status"]

/-- JS `String.prototype.toLowerCase` (character-wise lowering). -/
def lowerStr (s : String) : String :=
  String.mk (s.data.map Char.toLower)

/-- Whitespace characters removed by JS `String.prototype.trim`. -/
def isWS (c : Char) : Bool :=
  c = ' ' || c = '\t' || c = '\n' || c = '\r' || c = '\x0b' || c = '\x0c'

/-- JS `String.prototype.trim`. -/
def trimStr (s : String) : String :=
  String.mk (((s.data.dropWhile isWS).reverse.dropWhile isWS).reverse)

/-- Result of `checkDuplicateDeals`. -/
structure DupResult where
  hasDuplicates : Bool
  duplicates : List Rcd
deriving Repr, DecidableEq

/-- The successful-read body of `checkDuplicateDeals`: when the `Deals`
sheet has more than one row, scan every data row; a row whose status is
not `rejected` and whose `company_name` or `domain` matches the candidate
case-insensitively is collected as a named record. -/
def checkDuplicateDealsCore (deals : Table) (companyName domain : String) :
    DupResult :=
  let duplicates :=
    match deals with
    | [] => []
    | headers :: rows =>
      if rows = [] then []
      else
        let companyIndex := idxOf headers "company_name"
        let domainIndex := idxOf headers "domain"
        let statusIndex := idxOf headers "status"
        rows.filterMap (fun row =>
          let existingCompany := cellI row companyIndex
          let existingDomain := cellI row domainIndex
          let existingStatus := cellI row statusIndex
          if existingStatus ≠ "rejected" ∧
              (lowerStr existingCompany = lowerStr companyName ∨
               lowerStr existingDomain = lowerStr domain)
          then some (toRecord headers row)
          else none)
  ⟨duplicates.length > 0, duplicates⟩

/-- `checkDuplicateDeals(companyName, domain)`: the read of the `Deals`
sheet may fail; the `catch` branch returns an empty duplicate set instead
of propagating the error. -/
def checkDuplicateDeals (readDeals : Except Unit Table)
    (companyName domain : String) : DupResult :=
  match readDeals with
  | .error _ => ⟨false, []⟩
  | .ok deals => checkDuplicateDealsCore deals companyName domain

/-- `getEstimatedApprovalTime(dealValue)`: strip every character that is
not a digit or a dot, take the integer part `parseFloat` would parse, and
band the value. -/
def getEstimatedApprovalTime (dealValue : String) : String :=
  let stripped := dealValue.data.filter (fun c => c.isDigit || c = '.')
  let intDigits := stripped.takeWhile Char.isDigit
  let value : Nat := intDigits.foldl (fun a c => a * 10 + (c.toNat - 48)) 0
  if value ≥ 500000 then "3-5 business days"
  else if value ≥ 100000 then "2-3 business days"
  else "1-2 business days"

/-- The customer fields `createDeal` hands to `createOrFindCustomer`. -/
structure CustData where
  companyName : String
  domain : String
  legalName : String
  industry : String
  location : String
deriving Repr, DecidableEq

/-- `createOrFindCustomer(customerData)`: find the customer by exact
domain match; when absent, append a new customer row and re-find it. -/
def createOrFindCustomer (db : DB) (c : CustData) : Option (Rcd × Nat) × DB :=
  match findRowByValue db.customers "domain" c.domain with
  | some customer => (some customer, db)
  | none =>
    let customerRecord : Row :=
      [genId db.fresh, c.companyName, c.domain, c.legalName, c.industry,
       c.location, "", tsOf (db.fresh + 1), tsOf (db.fresh + 2)]
    let customers := db.customers ++ [customerRecord]
    let db := { db with customers := customers, fresh := db.fresh + 3 }
    (findRowByValue db.customers "domain" c.domain, db)

/-- The deal-submission payload (`req.body` of `POST /api/v1/deals`). -/
structure DealRequest where
  companyName : String
  domain : String
  partnerCompany : String
  submitterName : String
  submitterEmail : String
  territory : String
  customerLegalName : String
  customerIndustry : String
  customerLocation : String
  dealStage : String
  expectedCloseDate : String
  dealValue : String
  contractType : String
  primaryProduct : String
  additionalNotes : String
  uploadedFiles : Option String
  agreedToTerms : Bool
deriving Repr, DecidableEq

/-- The authenticated user attached by the auth middleware. -/
structure AuthUser where
  id : String
  email : String
  role : String
  partnerId : String
deriving Repr, DecidableEq

/-- Responses of `createDeal`. -/
inductive CreateResult where
  | missingFields
  | mustAgreeTerms
  | duplicateConflict (duplicates : List Rcd)
  | internalError
  | success (dealId : String) (estimatedApprovalTime : String)
deriving Repr, DecidableEq

/-- The `dealData` row `createDeal` appends: 28 cells in write order,
ids and timestamps drawn from the fresh counter, `status` fixed to
`submitted` and `approved_by`/`approved_at` left empty. -/
def newDealRow (fresh : Nat) (customerId : String) (r : DealRequest)
    (user : Option AuthUser) : Row :=
  [genId fresh,
   (match user with | some u => u.partnerId | none => ""),
   customerId,
   (match user with | some u => u.id | none => ""),
   "submitted",
   r.partnerCompany, r.submitterName, r.submitterEmail, r.territory,
   r.companyName, r.domain, r.customerLegalName, r.customerIndustry,
   r.customerLocation, r.dealStage, r.expectedCloseDate, r.dealValue,
   r.contractType, r.primaryProduct, r.additionalNotes,
   (match r.uploadedFiles with | some s => s | none => ""),
   (if r.agreedToTerms then "true" else "false"),
   "", "", "", "",
   tsOf (fresh + 1), tsOf (fresh + 2)]

/-- `createDeal(req, res)`: validate required fields and the terms flag,
run the duplicate check, resolve or create the customer, append the deal
row with status `submitted`, then re-find the created deal by
`company_name` and answer with its id. -/
def createDeal (db : DB) (r : DealRequest) (user : Option AuthUser) :
    CreateResult × DB :=
  if r.companyName = "" ∨ r.domain = "" ∨ r.partnerCompany = "" ∨
      r.submitterName = "" ∨ r.submitterEmail = "" then
    (.missingFields, db)
  else if r.agreedToTerms = false then
    (.mustAgreeTerms, db)
  else
    let duplicateCheck := checkDuplicateDeals (.ok db.deals) r.companyName r.domain
    if duplicateCheck.hasDuplicates then
      (.duplicateConflict duplicateCheck.duplicates, db)
    else
      match createOrFindCustomer db
          ⟨r.companyName, r.domain, r.customerLegalName, r.customerIndustry,
           r.customerLocation⟩ with
      | (none, db) => (.internalError, db)
      | (some customer, db) =>
        let dealData : Row := newDealRow db.fresh (getField customer.1 "id") r user
        let db := { db with deals := db.deals ++ [dealData],
                            fresh := db.fresh + 3 }
        match findRowByValue db.deals "company_name" r.companyName with
        | none => (.internalError, db)
        | some createdDeal =>
          (.success (getField createdDeal.1 "id")
            (getEstimatedApprovalTime r.dealValue), db)

/-- The static operator allowlist of the admin router. -/
def ADMIN_USERS : List String :=
  ["huseini@daxa.ai", "apoorva@daxa.ai", "sridhar@daxa.ai", "admin@daxa.ai"]

/-- `requireAdmin` middleware: the lower-cased requester email must be in
the static allowlist. -/
def requireAdmin (userEmail : String) : Bool :=
  ADMIN_USERS.contains (lowerStr userEmail)

/-- Responses of the approve route. -/
inductive ApproveResult where
  | forbidden
  | notFound
  | invalidTransition (status : String)
  | rowUpdateError
  | success
deriving Repr, DecidableEq

/-- `POST /api/v1/admin/deals/:id/approve` behind `authenticateToken` and
`requireAdmin`: the deal must exist and be `submitted`; the row is
rewritten in place with status `approved`, `approved_by`, `approved_at`,
and one audit-log entry is appended. -/
def approveRoute (db : DB) (u : AuthUser) (dealId approverName : String) :
    ApproveResult × DB :=
  if requireAdmin u.email = false then (.forbidden, db)
  else
    match findRowByValue db.deals "id" dealId with
    | none => (.notFound, db)
    | some deal =>
      if getField deal.1 "status" ≠ "submitted" then
        (.invalidTransition (getField deal.1 "status"), db)
      else
        let headers := db.deals.headD []
        let dealRowIndex := deal.2
        if dealRowIndex = 0 then (.rowUpdateError, db)
        else
          let statusIndex := idxOf headers "status"
          let approvedByIndex := idxOf headers "approved_by"
          let approvedAtIndex := idxOf headers "approved_at"
          let approver := if approverName = "" then u.email else approverName
          let cur := db.deals.getD (dealRowIndex - 1) []
          let updatedRow := setCell (setCell (setCell cur
            statusIndex "approved")
            approvedByIndex approver)
            approvedAtIndex (tsOf db.fresh)
          let auditData : Row :=
            [genId (db.fresh + 1), dealId, u.email, "approved",
             tsOf (db.fresh + 2), "Deal approved by " ++ approver]
          (.success,
           { db with deals := updateRowAt db.deals dealRowIndex updatedRow,
                     auditLog := db.auditLog ++ [auditData],
                     fresh := db.fresh + 3 })

/-- Responses of the reject route. -/
inductive RejectResult where
  | forbidden
  | validationError
  | notFound
  | invalidTransition (status : String)
  | rowUpdateError
  | success
deriving Repr, DecidableEq

/-- `POST /api/v1/admin/deals/:id/reject` behind `authenticateToken` and
`requireAdmin`: a non-blank rejection reason is required before any store
access; the deal must exist and be `submitted`; the row is rewritten in
place with status `rejected`, `approved_by`, `approved_at`,
`rejection_reason`, and one audit-log entry is appended. -/
def rejectRoute (db : DB) (u : AuthUser)
    (dealId approverName rejectionReason : String) : RejectResult × DB :=
  if requireAdmin u.email = false then (.forbidden, db)
  else if rejectionReason = "" ∨ trimStr rejectionReason = "" then
    (.validationError, db)
  else
    match findRowByValue db.deals "id" dealId with
    | none => (.notFound, db)
    | some deal =>
      if getField deal.1 "status" ≠ "submitted" then
        (.invalidTransition (getField deal.1 "status"), db)
      else
        let headers := db.deals.headD []
        let dealRowIndex := deal.2
        if dealRowIndex = 0 then (.rowUpdateError, db)
        else
          let statusIndex := idxOf headers "status"
          let approvedByIndex := idxOf headers "approved_by"
          let approvedAtIndex := idxOf headers "approved_at"
          let rejectionReasonIndex := idxOf headers "rejection_reason"
          let approver := if approverName = "" then u.email else approverName
          let cur := db.deals.getD (dealRowIndex - 1) []
          let updatedRow := setCell (setCell (setCell (setCell cur
            statusIndex "rejected")
            approvedByIndex approver)
            approvedAtIndex (tsOf db.fresh))
            rejectionReasonIndex (trimStr rejectionReason)
          let auditData : Row :=
            [genId (db.fresh + 1), dealId, u.email, "rejected",
             tsOf (db.fresh + 2),
             "Deal rejected by " ++ approver ++ ": " ++ rejectionReason]
          (.success,
           { db with deals := updateRowAt db.deals dealRowIndex updatedRow,
                     auditLog := db.auditLog ++ [auditData],
                     fresh := db.fresh + 3 })

/-- Modelled from the spec: the backend's `checkAdminStatus` (the reader
of the dynamic AdminEntry registry, imported by the OAuth callback from
the backend auth middleware) is not among the sources; per the spec an
AdminEntry is `email, added_by, added_at, status` and grants admin when an
entry for the email is active. -/
def adminEntryActive (admins : Table) (email : String) : Bool :=
  match admins with
  | [] => false
  | headers :: rows =>
    let emailIndex := idxOf headers "email"
    let statusIndex := idxOf headers "status"
    rows.any (fun row =>
      lowerStr (cellI row emailIndex) = lowerStr email &&
      cellI row statusIndex = "active")

/-- One request against the store: the three deal-lifecycle operations. -/
inductive Op where
  | submit (r : DealRequest) (user : Option AuthUser)
  | approve (u : AuthUser) (dealId approverName : String)
  | reject (u : AuthUser) (dealId approverName rejectionReason : String)

/-- The store state after handling one request (responses discarded). -/
def stepOp (db : DB) : Op → DB
  | .submit r user => (createDeal db r user).2
  | .approve u dealId a => (approveRoute db u dealId a).2
  | .reject u dealId a reason => (rejectRoute db u dealId a reason).2

/-- Run a sequence of requests. -/
def runOps (db : DB) (ops : List Op) : DB :=
  ops.foldl stepOp db

/-- The initial store: every sheet holds just its header row. -/
def initDB : DB :=
  { deals := [dealsHeader], customers := [customersHeader],
    auditLog := [auditHeader], admins := [adminsHeader], fresh := 0 }


/-! ### Cell-level lemmas about `setCell` -/
theorem length_le_setCell (r : Row) (i : Int) (v : String) :
    r.length ≤ (setCell r i v).length := by
  unfold setCell
  split
  · exact Nat.le_refl _
  · split
    · simp
    · simp

theorem cellD_setCell_self (r : Row) (i : Nat) (v : String) :
    cellD (setCell r (i : Int) v) i = v := by
  unfold setCell cellD
  simp only [Int.not_lt.mpr (Int.natCast_nonneg i), if_false, Int.toNat_natCast]
  split
  · next hlt =>
    rw [List.getD_eq_getElem?_getD, List.getElem?_set_eq_of_lt _ hlt]
    rfl
  · next hge =>
    push_neg at hge
    rw [List.getD_eq_getElem?_getD,
        List.getElem?_append_right (by simp; omega)]
    have h0 : i - (r ++ List.replicate (i - r.length) "").length = 0 := by
      simp
      omega
    rw [h0]
    rfl

theorem cellD_setCell_other (r : Row) (i : Int) (j : Nat) (v : String)
    (h : (j : Int) ≠ i) : cellD (setCell r i v) j = cellD r j := by
  unfold setCell
  split
  · rfl
  · next hnn =>
    push_neg at hnn
    have hij : i.toNat ≠ j := by omega
    split
    · next hlt =>
      unfold cellD
      rw [List.getD_eq_getElem?_getD, List.getD_eq_getElem?_getD,
          List.getElem?_set_ne hij]
    · next hge =>
      push_neg at hge
      unfold cellD
      rcases Nat.lt_or_ge j r.length with hj | hj
      · rw [List.getD_eq_getElem?_getD, List.append_assoc,
            List.getElem?_append_left hj, ← List.getD_eq_getElem?_getD]
      · rw [List.getD_eq_getElem?_getD, List.getD_eq_getElem?_getD,
            List.append_assoc, List.getElem?_append_right (by omega),
            List.getElem?_eq_none hj]
        rcases Nat.lt_or_ge (j - r.length) (i.toNat - r.length) with hj2 | hj2
        · rw [List.getElem?_append_left (by simp; omega),
              List.getElem?_replicate]
          simp [hj2]
        · rw [List.getElem?_eq_none (by simp; omega)]

theorem cellAt_setCell_of_lt (r : Row) (i : Int) (j : Nat) (v : String)
    (hj : j < r.length) (h : (j : Int) ≠ i) :
    cellAt (setCell r i v) j = cellAt r j := by
  unfold setCell cellAt
  split
  · rfl
  · next hnn =>
    push_neg at hnn
    have hij : i.toNat ≠ j := by omega
    split
    · simp [List.get?_eq_getElem?, List.getElem?_set_ne hij]
    · rw [List.get?_eq_getElem?, List.get?_eq_getElem?, List.append_assoc,
          List.getElem?_append_left hj]


/-! ### Lemmas about the `findRowByValue` scan -/
theorem findRowAux_pos_le (hdr : List String) (ci : Nat) (rows : List Row)
    (v : String) (pos : Nat) (rec : Rcd) (p : Nat)
    (h : findRowAux hdr ci rows v pos = some (rec, p)) : pos ≤ p := by
  induction rows generalizing pos with
  | nil => simp [findRowAux] at h
  | cons r t ih =>
    unfold findRowAux at h
    split at h
    · simp at h
      omega
    · exact Nat.le_of_succ_le (ih (pos + 1) h)

theorem findRowAux_eq_some (hdr : List String) (ci : Nat) (rows : List Row)
    (v : String) (pos : Nat) (rec : Rcd) (p : Nat)
    (h : findRowAux hdr ci rows v pos = some (rec, p)) :
    ∃ j, j < rows.length ∧ p = pos + j ∧
      cellAt (rows.getD j []) ci = some v ∧
      rec = toRecord hdr (rows.getD j []) ∧
      ∀ k, k < j → cellAt (rows.getD k []) ci ≠ some v := by
  induction rows generalizing pos with
  | nil => simp [findRowAux] at h
  | cons r t ih =>
    unfold findRowAux at h
    split at h
    · next hm =>
      simp at h
      refine ⟨0, by simp, by omega, by simpa [h.1] using hm, by simp [h.1], ?_⟩
      intro k hk
      omega
    · next hm =>
      obtain ⟨j, hj, hp, hc, hr, hk⟩ := ih (pos + 1) h
      refine ⟨j + 1, by simpa using hj, by omega, by simpa using hc,
        by simpa using hr, ?_⟩
      intro k hk'
      cases k with
      | zero => simpa using hm
      | succ k' => simpa using hk k' (by omega)

theorem findRowAux_eq_none_iff (hdr : List String) (ci : Nat)
    (rows : List Row) (v : String) (pos : Nat) :
    findRowAux hdr ci rows v pos = none ↔
      ∀ r ∈ rows, cellAt r ci ≠ some v := by
  induction rows generalizing pos with
  | nil => simp [findRowAux]
  | cons r t ih =>
    unfold findRowAux
    split
    · next hm => simp [hm]
    · next hm =>
      simp [ih (pos + 1), hm]

theorem findRowAux_append_none (hdr : List String) (ci : Nat)
    (rows : List Row) (v : String) (pos : Nat) (row : Row)
    (h : findRowAux hdr ci rows v pos = none) :
    findRowAux hdr ci (rows ++ [row]) v pos =
      if cellAt row ci = some v then some (toRecord hdr row, pos + rows.length)
      else none := by
  induction rows generalizing pos with
  | nil => simp [findRowAux]
  | cons r t ih =>
    unfold findRowAux at h ⊢
    split at h
    · exact absurd h (by simp)
    · next hm =>
      simp only [List.cons_append, hm, if_false, List.length_cons]
      rw [ih (pos + 1) h]
      have he : pos + 1 + t.length = pos + (t.length + 1) := by omega
      rw [he]

theorem findRowAux_set_match (hdr : List String) (ci : Nat)
    (rows : List Row) (v : String) (pos : Nat) (rec : Rcd) (p : Nat)
    (row' : Row)
    (h : findRowAux hdr ci rows v pos = some (rec, p))
    (hm : cellAt row' ci = some v) :
    findRowAux hdr ci (rows.set (p - pos) row') v pos =
      some (toRecord hdr row', p) := by
  induction rows generalizing pos with
  | nil => simp [findRowAux] at h
  | cons r t ih =>
    unfold findRowAux at h
    split at h
    · next hmr =>
      simp at h
      rw [h.2, Nat.sub_self]
      simp [findRowAux, hm]
    · next hmr =>
      have hle := findRowAux_pos_le hdr ci t v (pos + 1) rec p h
      have hps : p - pos = (p - (pos + 1)) + 1 := by omega
      rw [hps]
      simp only [List.set_cons_succ]
      unfold findRowAux
      simp only [hmr, if_false]
      exact ih (pos + 1) h


/-! ### Header-index computations and record lemmas -/
@[simp]
theorem idxOfN_deals_id : idxOfN dealsHeader "id" = some 0 := by decide

@[simp]
theorem idxOfN_deals_company : idxOfN dealsHeader "company_name" = some 9 := by decide

@[simp]
theorem idx_deals_status : idxOf dealsHeader "status" = 4 := by decide

@[simp]
theorem idx_deals_approved_by : idxOf dealsHeader "approved_by" = 24 := by decide

@[simp]
theorem idx_deals_approved_at : idxOf dealsHeader "approved_at" = 25 := by decide

@[simp]
theorem idx_deals_rejection_reason : idxOf dealsHeader "rejection_reason" = 28 := by decide

@[simp]
theorem idxOfN_cust_domain : idxOfN customersHeader "domain" = some 2 := by decide

theorem getField_toRecord_deals_status (r : Row) :
    getField (toRecord dealsHeader r) "status" = cellD r 4 := by
  simp [toRecord, toRecordAux, getField, dealsHeader]

theorem getField_toRecord_deals_id (r : Row) :
    getField (toRecord dealsHeader r) "id" = cellD r 0 := by
  simp [toRecord, toRecordAux, getField, dealsHeader]

theorem idxOfN_lt_length (l : List String) (s : String) (n : Nat)
    (h : idxOfN l s = some n) : n < l.length := by
  induction l generalizing n with
  | nil => simp [idxOfN] at h
  | cons a t ih =>
    unfold idxOfN at h
    split at h
    · simp at h
      simp [← h]
    · revert h
      cases h2 : idxOfN t s with
      | none => simp
      | some m =>
        intro h
        simp at h
        have := ih m h2
        simp
        omega

theorem toRecordAux_cells_eq (hdr : List String) (i : Nat) (r r' : Row)
    (h : toRecordAux hdr i r = toRecordAux hdr i r') :
    ∀ j, j < hdr.length → cellD r (i + j) = cellD r' (i + j) := by
  induction hdr generalizing i with
  | nil => simp
  | cons a t ih =>
    unfold toRecordAux at h
    simp at h
    intro j hj
    cases j with
    | zero => simpa using h.1
    | succ j' =>
      have := ih (i + 1) h.2 j' (by simpa using hj)
      have harith : i + 1 + j' = i + (j' + 1) := by omega
      rwa [harith] at this

theorem findRowByValue_pos_ge2 (t : Table) (col v : String) (rec : Rcd)
    (p : Nat) (h : findRowByValue t col v = some (rec, p)) : 2 ≤ p := by
  unfold findRowByValue at h
  split at h
  · exact absurd h (by simp)
  · split at h
    · exact absurd h (by simp)
    · exact findRowAux_pos_le _ _ _ _ _ _ _ h

theorem head?_set_of_pos (t : Table) (p : Nat) (row : Row) (hp : 1 ≤ p) :
    (t.set p row).head? = t.head? := by
  cases t with
  | nil => simp
  | cons a l =>
    cases p with
    | zero => omega
    | succ n => simp

theorem cellI_natCast (row : Row) (n : Nat) : cellI row (n : Int) = cellD row n := by
  simp [cellI]

/-! ### Concrete fixtures used by witnesses and counterexamples -/

/-- A deal row with status `submitted` (id `ID_0`). -/
def exSubmittedRow : Row :=
  ["ID_0", "p0", "c0", "s0", "submitted", "PartnerCo", "Sam", "sam@p.io",
   "NA", "Acme", "acme.com", "", "Tech", "US", "negotiation", "2026-01-01",
   "600000", "new", "", "", "", "true", "", "", "", "", "TS_c", "TS_u"]

/-- A deal row with status `rejected`, same company and domain (id `ID_0`). -/
def exRejectedRow : Row :=
  ["ID_0", "p0", "c0", "s0", "rejected", "PartnerCo", "Sam", "sam@p.io",
   "NA", "Acme", "acme.com", "", "Tech", "US", "negotiation", "2026-01-01",
   "600000", "new", "", "", "", "true", "", "", "rej@daxa.ai", "TS_a",
   "TS_c", "TS_u", "lost"]

/-- A complete, valid submission payload for company `Acme` / `acme.com`. -/
def exReq : DealRequest :=
  { companyName := "Acme", domain := "acme.com", partnerCompany := "PartnerCo",
    submitterName := "Sam", submitterEmail := "sam@p.io", territory := "NA",
    customerLegalName := "", customerIndustry := "Tech",
    customerLocation := "US", dealStage := "negotiation",
    expectedCloseDate := "2026-01-01", dealValue := "600000",
    contractType := "new", primaryProduct := "", additionalNotes := "",
    uploadedFiles := none, agreedToTerms := true }

/-- An operator from the static allowlist. -/
def exAdmin : AuthUser :=
  ⟨"U1", "admin@daxa.ai", "admin", "P1"⟩

/-- A store holding one submitted deal. -/
def exDB : DB :=
  { deals := [dealsHeader, exSubmittedRow], customers := [customersHeader],
    auditLog := [auditHeader], admins := [adminsHeader], fresh := 100 }

/-- A store holding one rejected deal for `Acme` / `acme.com`. -/
def exDBrejected : DB :=
  { deals := [dealsHeader, exRejectedRow], customers := [customersHeader],
    auditLog := [auditHeader], admins := [adminsHeader], fresh := 100 }

/-! ### Claim theorems -/

/-- C6: `checkDuplicateDeals` never raises; when the read of the Deals
table fails it returns `hasDuplicates = false` with an empty duplicate
set, so a store read failure never blocks a submission on duplicate
grounds.  (In this embedding the function is total by construction and
the failed-read branch is the `catch` branch of the source.) -/
theorem c6_duplicate_check_read_failure_empty (companyName domain : String)
    (e : Unit) :
    checkDuplicateDeals (.error e) companyName domain =
      ⟨false, []⟩ := rfl

/-- Shared helper: the blank-reason branch of the reject route. -/
theorem rejectRoute_blank_eq (db : DB) (u : AuthUser)
    (dealId approverName reason : String)
    (hadm : requireAdmin u.email = true)
    (hblank : reason = "" ∨ trimStr reason = "") :
    rejectRoute db u dealId approverName reason = (.validationError, db) := by
  unfold rejectRoute
  simp [hadm, hblank]

/-- C3: an authorized Reject whose reason is empty or blank after
trimming fails with `ValidationError` and performs no store access at
all: the store (hence every deal's status, including `submitted`) is
returned unchanged and no audit-log entry is appended. -/
theorem c3_reject_blank_reason_validation_error (db : DB) (u : AuthUser)
    (dealId approverName reason : String)
    (hadm : requireAdmin u.email = true)
    (hblank : reason = "" ∨ trimStr reason = "") :
    rejectRoute db u dealId approverName reason = (.validationError, db) :=
  rejectRoute_blank_eq db u dealId approverName reason hadm hblank

theorem c3_reject_blank_reason_witness :
    rejectRoute exDB exAdmin "ID_0" "" "   " = (.validationError, exDB) :=
  c3_reject_blank_reason_validation_error exDB exAdmin "ID_0" "" "   "
    (by decide) (Or.inr (by decide))

/-- C4: `createDeal` runs duplicate detection before any write; whenever
the duplicate check reports duplicates, the submission is refused with
the duplicate set and the store (Deals and Customers included) is
returned unchanged. -/
theorem c4_duplicate_conflict_blocks_submit (db : DB) (r : DealRequest)
    (user : Option AuthUser)
    (h1 : r.companyName ≠ "") (h2 : r.domain ≠ "")
    (h3 : r.partnerCompany ≠ "") (h4 : r.submitterName ≠ "")
    (h5 : r.submitterEmail ≠ "") (h6 : r.agreedToTerms = true)
    (hdup : (checkDuplicateDeals (.ok db.deals) r.companyName
      r.domain).hasDuplicates = true) :
    createDeal db r user =
      (.duplicateConflict (checkDuplicateDeals (.ok db.deals) r.companyName
        r.domain).duplicates, db) := by
  unfold createDeal
  simp [h1, h2, h3, h4, h5, h6, hdup]

theorem c4_duplicate_conflict_witness :
    createDeal exDB exReq none =
      (.duplicateConflict (checkDuplicateDeals (.ok exDB.deals) "Acme"
        "acme.com").duplicates, exDB) :=
  c4_duplicate_conflict_blocks_submit exDB exReq none (by decide) (by decide)
    (by decide) (by decide) (by decide) (by decide) (by decide)

theorem approveRoute_ne_forbidden (db : DB) (u : AuthUser)
    (dealId approverName : String) (h : requireAdmin u.email = true) :
    (approveRoute db u dealId approverName).1 ≠ .forbidden := by
  unfold approveRoute
  simp only [h, Bool.true_eq_false, if_false]
  split
  · simp
  · split
    · simp
    · split
      · simp
      · simp

theorem rejectRoute_ne_forbidden (db : DB) (u : AuthUser)
    (dealId approverName reason : String) (h : requireAdmin u.email = true) :
    (rejectRoute db u dealId approverName reason).1 ≠ .forbidden := by
  unfold rejectRoute
  simp only [h, Bool.true_eq_false, if_false]
  split
  · simp
  · split
    · simp
    · split
      · simp
      · split
        · simp
        · simp

/-- A user whose email is only an active AdminEntry: not in the static
allowlist, `User.role` not `admin`. -/
def c1User : AuthUser :=
  ⟨"U9", "carol@partner.io", "partner_user", "P9"⟩

/-- A store whose Admins sheet holds an active AdminEntry for
`carol@partner.io` and whose Deals sheet holds one submitted deal. -/
def c1DB : DB :=
  { deals := [dealsHeader, exSubmittedRow], customers := [customersHeader],
    auditLog := [auditHeader],
    admins := [adminsHeader, ["carol@partner.io", "admin@daxa.ai", "TS_0",
      "active"]],
    fresh := 100 }

/-- C1 counterexample: a requester whose email is an active AdminEntry
(and nothing else: role is `partner_user`, email not in the static
allowlist) is denied by the approve route with `Forbidden` and the store
is unchanged, so the claim that such a user can still approve is false. -/
theorem c1_adminEntry_only_is_denied :
    adminEntryActive c1DB.admins c1User.email = true ∧
    c1User.role ≠ "admin" ∧
    ADMIN_USERS.contains (lowerStr c1User.email) = false ∧
    approveRoute c1DB c1User "ID_0" "" = (.forbidden, c1DB) := by
  refine ⟨by decide, by decide, by decide, ?_⟩
  rfl

/-- C1 amended: `requireAdmin` consults only the static operator
allowlist (on the lower-cased email); a request to approve or reject is
rejected as `Forbidden` exactly when the email is not in that list,
regardless of `User.role` and of the AdminEntry registry, and in that
case the store is unchanged. -/
theorem c1_admin_gate_is_static_allowlist_only (db : DB) (u : AuthUser)
    (dealId approverName reason : String) :
    (requireAdmin u.email = ADMIN_USERS.contains (lowerStr u.email)) ∧
    ((approveRoute db u dealId approverName).1 = .forbidden ↔
      requireAdmin u.email = false) ∧
    ((rejectRoute db u dealId approverName reason).1 = .forbidden ↔
      requireAdmin u.email = false) ∧
    (requireAdmin u.email = false →
      approveRoute db u dealId approverName = (.forbidden, db) ∧
      rejectRoute db u dealId approverName reason = (.forbidden, db)) := by
  refine ⟨rfl, ?_, ?_, ?_⟩
  · cases hadm : requireAdmin u.email with
    | false =>
      unfold approveRoute
      simp [hadm]
    | true =>
      simp only [Bool.true_eq_false, iff_false]
      exact approveRoute_ne_forbidden db u dealId approverName hadm
  · cases hadm : requireAdmin u.email with
    | false =>
      unfold rejectRoute
      simp [hadm]
    | true =>
      simp only [Bool.true_eq_false, iff_false]
      exact rejectRoute_ne_forbidden db u dealId approverName reason hadm
  · intro hadm
    constructor
    · unfold approveRoute
      simp [hadm]
    · unfold rejectRoute
      simp [hadm]

theorem c1_admin_gate_witness :
    approveRoute c1DB c1User "ID_9" "x" = (.forbidden, c1DB) :=
  ((c1_admin_gate_is_static_allowlist_only c1DB c1User "ID_9" "x"
    "r").2.2.2 (by decide)).1

/-- The claim's collection condition, named: the row's status is not
`rejected`, and its company name or its domain matches the candidate
after lower-casing (no further normalization). -/
def isDuplicateOf (headers : List String) (companyName domain : String)
    (row : Row) : Bool :=
  decide (cellI row (idxOf headers "status") ≠ "rejected" ∧
    (lowerStr (cellI row (idxOf headers "company_name")) = lowerStr companyName ∨
     lowerStr (cellI row (idxOf headers "domain")) = lowerStr domain))

theorem filterMap_if_map {α β : Type} (p : α → Prop) [DecidablePred p]
    (f : α → β) (l : List α) :
    (l.filterMap fun a => if p a then some (f a) else none) =
      (l.filter fun a => decide (p a)).map f := by
  induction l with
  | nil => rfl
  | cons a t ih => by_cases h : p a <;> simp [h, ih]

/-- C5: `checkDuplicateDeals` collects exactly the data rows whose status
is not `rejected` and whose company name or domain matches the candidate
case-insensitively (an OR, lower-cased comparison); `hasDuplicates` holds
iff this set is non-empty; and a row with status `rejected` is never
collected, whatever its company and domain. -/
theorem c5_duplicate_detector_filter_semantics (hdr : List String)
    (rows : List Row) (cn dom : String) :
    (checkDuplicateDeals (.ok (hdr :: rows)) cn dom).duplicates =
      (rows.filter (isDuplicateOf hdr cn dom)).map (toRecord hdr) ∧
    ((checkDuplicateDeals (.ok (hdr :: rows)) cn dom).hasDuplicates = true ↔
      ∃ row ∈ rows, isDuplicateOf hdr cn dom row = true) ∧
    (∀ row ∈ rows, cellI row (idxOf hdr "status") = "rejected" →
      toRecord hdr row ∉
        (checkDuplicateDeals (.ok (hdr :: rows)) cn dom).duplicates) := by
  have hdup : (checkDuplicateDeals (.ok (hdr :: rows)) cn dom).duplicates =
      (rows.filter (isDuplicateOf hdr cn dom)).map (toRecord hdr) := by
    unfold checkDuplicateDeals checkDuplicateDealsCore
    cases rows with
    | nil => simp
    | cons r t =>
      simp only [if_neg (by simp : ¬(r :: t = []))]
      rw [filterMap_if_map
        (fun row => cellI row (idxOf hdr "status") ≠ "rejected" ∧
          (lowerStr (cellI row (idxOf hdr "company_name")) = lowerStr cn ∨
           lowerStr (cellI row (idxOf hdr "domain")) = lowerStr dom))
        (toRecord hdr) (r :: t)]
      rfl
  refine ⟨hdup, ?_, ?_⟩
  · have hlen : (checkDuplicateDeals (.ok (hdr :: rows)) cn dom).hasDuplicates =
        decide (0 < (checkDuplicateDeals (.ok (hdr :: rows)) cn
          dom).duplicates.length) := by
      unfold checkDuplicateDeals checkDuplicateDealsCore
      rfl
    rw [hlen, hdup]
    simp only [decide_eq_true_iff, List.length_map, List.length_pos]
    constructor
    · intro h
      obtain ⟨a, ha⟩ := List.exists_mem_of_ne_nil _ h
      have := List.mem_filter.mp ha
      exact ⟨a, this.1, this.2⟩
    · rintro ⟨row, hmem, hp⟩
      exact List.ne_nil_of_mem (List.mem_filter.mpr ⟨hmem, hp⟩)
  · intro row hmem hrej hin
    rw [hdup] at hin
    obtain ⟨r', hr'mem, hr'eq⟩ := List.mem_map.mp hin
    have hf := List.mem_filter.mp hr'mem
    have hp := of_decide_eq_true hf.2
    cases hsi : idxOfN hdr "status" with
    | none =>
      have hneg : idxOf hdr "status" = -1 := by simp [idxOf, hsi]
      rw [hneg] at hrej
      simp [cellI] at hrej
    | some n =>
      have hidx : idxOf hdr "status" = (n : Int) := by simp [idxOf, hsi]
      have hn := idxOfN_lt_length hdr "status" n hsi
      have hcells := toRecordAux_cells_eq hdr 0 r' row hr'eq n hn
      simp only [Nat.zero_add] at hcells
      rw [hidx, cellI_natCast] at hrej
      rw [hidx, cellI_natCast] at hp
      exact hp.1 (hcells.trans hrej)

theorem c5_rejected_not_collected_witness :
    toRecord dealsHeader exRejectedRow ∉
      (checkDuplicateDeals (.ok [dealsHeader, exRejectedRow]) "Acme"
        "acme.com").duplicates :=
  (c5_duplicate_detector_filter_semantics dealsHeader [exRejectedRow] "Acme"
    "acme.com").2.2 exRejectedRow (by decide) (by decide)

/-- C10: `findRowByValue` returns `none` (never raises, never matches)
when the table is empty or the search column does not occur in the header
row; and whenever it returns a match, the attached position is the
matched data row's 1-based sheet position (the first data row has
position 2), the matched row is the first whose cell in the search column
strictly equals the value, and the record is built from that row. -/
theorem c10_findRowByValue_contract :
    (∀ col v : String, findRowByValue [] col v = none) ∧
    (∀ (hdr : List String) (rows : List Row) (col v : String),
      idxOfN hdr col = none → findRowByValue (hdr :: rows) col v = none) ∧
    (∀ (hdr : List String) (rows : List Row) (col v : String) (rec : Rcd)
      (p : Nat), findRowByValue (hdr :: rows) col v = some (rec, p) →
      ∃ ci j, idxOfN hdr col = some ci ∧ j < rows.length ∧ p = j + 2 ∧
        cellAt (rows.getD j []) ci = some v ∧
        rec = toRecord hdr (rows.getD j []) ∧
        ∀ k, k < j → cellAt (rows.getD k []) ci ≠ some v) := by
  refine ⟨fun col v => rfl, ?_, ?_⟩
  · intro hdr rows col v hnone
    unfold findRowByValue
    simp [hnone]
  · intro hdr rows col v rec p h
    rw [show findRowByValue (hdr :: rows) col v =
      (match idxOfN hdr col with
       | none => none
       | some ci => findRowAux hdr ci rows v 2) from rfl] at h
    cases hci : idxOfN hdr col with
    | none => rw [hci] at h; exact absurd h (by simp)
    | some ci =>
      rw [hci] at h
      obtain ⟨j, hj, hp, hc, hr, hk⟩ :=
        findRowAux_eq_some hdr ci rows v 2 rec p h
      exact ⟨ci, j, rfl, hj, by omega, hc, hr, hk⟩

theorem c10_findRowByValue_witness :
    findRowByValue [dealsHeader, exSubmittedRow] "no_such_column" "x" =
      none :=
  c10_findRowByValue_contract.2.1 dealsHeader [exSubmittedRow]
    "no_such_column" "x" (by decide)

theorem findRowByValue_cons (hdr : List String) (rows : List Row)
    (col v : String) :
    findRowByValue (hdr :: rows) col v =
      (match idxOfN hdr col with
       | none => none
       | some ci => findRowAux hdr ci rows v 2) := rfl

/-- The row `createOrFindCustomer` appends when the domain is absent. -/
def newCustomerRow (db : DB) (c : CustData) : Row :=
  [genId db.fresh, c.companyName, c.domain, c.legalName, c.industry,
   c.location, "", tsOf (db.fresh + 1), tsOf (db.fresh + 2)]

theorem createOrFindCustomer_eq_found (db : DB) (c : CustData) (cust : Rcd × Nat)
    (hf : findRowByValue db.customers "domain" c.domain = some cust) :
    createOrFindCustomer db c = (some cust, db) := by
  unfold createOrFindCustomer
  rw [hf]

theorem createOrFindCustomer_eq_missing (db : DB) (c : CustData)
    (hf : findRowByValue db.customers "domain" c.domain = none) :
    createOrFindCustomer db c =
      (findRowByValue (db.customers ++ [newCustomerRow db c]) "domain" c.domain,
       { db with customers := db.customers ++ [newCustomerRow db c],
                 fresh := db.fresh + 3 }) := by
  unfold createOrFindCustomer newCustomerRow
  rw [hf]

theorem findRowByValue_append_match (rows : List Row) (row : Row)
    (dom : String)
    (hnone : findRowAux customersHeader 2 rows dom 2 = none)
    (hcell : cellAt row 2 = some dom) :
    findRowByValue ((customersHeader :: rows) ++ [row]) "domain" dom =
      some (toRecord customersHeader row, 2 + rows.length) := by
  rw [List.cons_append, findRowByValue_cons]
  have happ := findRowAux_append_none customersHeader 2 rows dom 2 row hnone
  rw [hcell, if_pos rfl] at happ
  simpa [idxOfN_cust_domain] using happ

/-- C8: customer resolution is find-before-create keyed on the domain
with exact, case-sensitive string equality.  First part: a second call
with the identical domain string (any other fields, e.g. a different
company display name) returns the very same customer record — same id,
same position — and leaves the store unchanged: no second Customer row.
Second part: when no existing row's domain cell equals the candidate
domain exactly — even when rows differing only in letter case exist — a
new Customer row is appended, so case-variant domains do not resolve to
the same Customer. -/
theorem c8_customer_resolution_find_before_create :
    (∀ (db : DB) (c1 c2 : CustData),
      db.customers.head? = some customersHeader → c1.domain = c2.domain →
      createOrFindCustomer (createOrFindCustomer db c1).2 c2 =
        ((createOrFindCustomer db c1).1, (createOrFindCustomer db c1).2)) ∧
    (∀ (db : DB) (c : CustData),
      db.customers.head? = some customersHeader →
      (∀ row ∈ db.customers.tail, cellAt row 2 ≠ some c.domain) →
      (createOrFindCustomer db c).2.customers =
        db.customers ++ [newCustomerRow db c]) := by
  constructor
  · intro db c1 c2 hh hdom
    cases hf : findRowByValue db.customers "domain" c1.domain with
    | some cust =>
      have e1 := createOrFindCustomer_eq_found db c1 cust hf
      have e2 := createOrFindCustomer_eq_found db c2 cust (by rw [← hdom]; exact hf)
      rw [e1]
      exact e2
    | none =>
      cases hcs : db.customers with
      | nil => rw [hcs] at hh; exact absurd hh (by simp)
      | cons h0 rows =>
        rw [hcs] at hh
        simp at hh
        subst hh
        have hauxnone : findRowAux customersHeader 2 rows c1.domain 2 = none := by
          rw [hcs, findRowByValue_cons] at hf
          simpa [idxOfN_cust_domain] using hf
        have hcell : cellAt (newCustomerRow db c1) 2 = some c1.domain := rfl
        have hfind2 : findRowByValue (db.customers ++ [newCustomerRow db c1])
            "domain" c1.domain =
            some (toRecord customersHeader (newCustomerRow db c1),
              2 + rows.length) := by
          rw [hcs]
          exact findRowByValue_append_match rows (newCustomerRow db c1)
            c1.domain hauxnone hcell
        have e1 := createOrFindCustomer_eq_missing db c1 hf
        rw [hfind2] at e1
        have e2 := createOrFindCustomer_eq_found
          { db with customers := db.customers ++ [newCustomerRow db c1],
                    fresh := db.fresh + 3 } c2
          (toRecord customersHeader (newCustomerRow db c1), 2 + rows.length)
          (by rw [← hdom]; exact hfind2)
        rw [e1]
        exact e2
  · intro db c hh hnone
    cases hcs : db.customers with
    | nil => rw [hcs] at hh; exact absurd hh (by simp)
    | cons h0 rows =>
      rw [hcs] at hh
      simp at hh
      subst hh
      have hf : findRowByValue db.customers "domain" c.domain = none := by
        rw [hcs, findRowByValue_cons]
        simp only [idxOfN_cust_domain]
        rw [findRowAux_eq_none_iff]
        intro r hr
        exact hnone r (by rw [hcs]; simpa using hr)
      rw [createOrFindCustomer_eq_missing db c hf]
      simp [hcs]

/-- A store with one customer row whose domain is `Acme.com` (upper-case
A), used to show the customer lookup is case-sensitive. -/
def c8DBvariant : DB :=
  { deals := [dealsHeader],
    customers := [customersHeader,
      ["ID_5", "Acme", "Acme.com", "", "Tech", "US", "", "TS_1", "TS_2"]],
    auditLog := [auditHeader], admins := [adminsHeader], fresh := 100 }

theorem c8_customer_resolution_witness :
    (createOrFindCustomer
        (createOrFindCustomer exDB ⟨"Acme", "acme.com", "", "Tech", "US"⟩).2
        ⟨"Acme GmbH", "acme.com", "", "Mfg", "DE"⟩ =
      ((createOrFindCustomer exDB ⟨"Acme", "acme.com", "", "Tech", "US"⟩).1,
       (createOrFindCustomer exDB ⟨"Acme", "acme.com", "", "Tech", "US"⟩).2)) ∧
    ((createOrFindCustomer c8DBvariant
        ⟨"Acme", "acme.com", "", "Tech", "US"⟩).2.customers =
      c8DBvariant.customers ++
        [newCustomerRow c8DBvariant ⟨"Acme", "acme.com", "", "Tech", "US"⟩]) :=
  ⟨c8_customer_resolution_find_before_create.1 exDB
      ⟨"Acme", "acme.com", "", "Tech", "US"⟩
      ⟨"Acme GmbH", "acme.com", "", "Mfg", "DE"⟩ rfl rfl,
   c8_customer_resolution_find_before_create.2 c8DBvariant
      ⟨"Acme", "acme.com", "", "Tech", "US"⟩ rfl (by decide)⟩

theorem findRowByValue_append_match_gen (hdr : List String) (rows : List Row)
    (row : Row) (col v : String) (ci : Nat)
    (hci : idxOfN hdr col = some ci)
    (hnone : findRowAux hdr ci rows v 2 = none)
    (hcell : cellAt row ci = some v) :
    findRowByValue ((hdr :: rows) ++ [row]) col v =
      some (toRecord hdr row, 2 + rows.length) := by
  rw [List.cons_append, findRowByValue_cons]
  have happ := findRowAux_append_none hdr ci rows v 2 row hnone
  rw [hcell, if_pos rfl] at happ
  simp only [hci]
  exact happ

theorem createOrFindCustomer_isSome (db : DB) (c : CustData)
    (hch : db.customers.head? = some customersHeader) :
    ∃ cust dbc, createOrFindCustomer db c = (some cust, dbc) ∧
      dbc.deals = db.deals := by
  cases hf : findRowByValue db.customers "domain" c.domain with
  | some cust =>
    rw [createOrFindCustomer_eq_found db c cust hf]
    exact ⟨cust, db, rfl, rfl⟩
  | none =>
    cases hcs : db.customers with
    | nil => rw [hcs] at hch; exact absurd hch (by simp)
    | cons h0 rows =>
      rw [hcs] at hch
      simp at hch
      subst hch
      have hauxnone : findRowAux customersHeader 2 rows c.domain 2 = none := by
        rw [hcs, findRowByValue_cons] at hf
        simpa [idxOfN_cust_domain] using hf
      have hfind2 : findRowByValue (db.customers ++ [newCustomerRow db c])
          "domain" c.domain =
          some (toRecord customersHeader (newCustomerRow db c),
            2 + rows.length) := by
        rw [hcs]
        exact findRowByValue_append_match rows (newCustomerRow db c)
          c.domain hauxnone rfl
      rw [createOrFindCustomer_eq_missing db c hf, hfind2]
      exact ⟨_, _, rfl, rfl⟩

/-- C7 counterexample: with a prior `rejected` deal for the same company
name, the duplicate check passes, a fresh deal row (id `ID_103`) is
appended, but the submission reports the id of the first exact
company-name match — the old rejected row's `ID_0` — not the id of the
row this submission created. -/
theorem c7_submit_returns_stale_id :
    (createDeal exDBrejected exReq none).1 =
      .success "ID_0" "3-5 business days" ∧
    cellD ((createDeal exDBrejected exReq none).2.deals.getLastD []) 0 =
      "ID_103" ∧
    (createDeal exDBrejected exReq none).2.deals.length =
      exDBrejected.deals.length + 1 ∧
    ("ID_0" : String) ≠ "ID_103" := by
  refine ⟨rfl, rfl, rfl, by decide⟩

/-- C7 amended: the id a successful Submit reports is the id of the
*first* Deals data row whose `company_name` cell exactly equals the
submitted company name.  When no pre-existing data row matches exactly
(in particular, no rejected row with the same name), that first match is
the row this submission just appended, so the reported id equals the new
row's id; the counterexample shows the reported id is stale otherwise. -/
theorem c7_submit_returns_first_exact_name_match_id (db : DB)
    (r : DealRequest) (user : Option AuthUser)
    (hh : db.deals.head? = some dealsHeader)
    (hch : db.customers.head? = some customersHeader)
    (h1 : r.companyName ≠ "") (h2 : r.domain ≠ "")
    (h3 : r.partnerCompany ≠ "") (h4 : r.submitterName ≠ "")
    (h5 : r.submitterEmail ≠ "") (h6 : r.agreedToTerms = true)
    (hdup : (checkDuplicateDeals (.ok db.deals) r.companyName
      r.domain).hasDuplicates = false)
    (hnoexact : ∀ row ∈ db.deals.tail, cellAt row 9 ≠ some r.companyName) :
    ∃ newRow db',
      createDeal db r user =
        (.success (cellD newRow 0) (getEstimatedApprovalTime r.dealValue),
         db') ∧
      db'.deals = db.deals ++ [newRow] ∧
      cellD newRow 4 = "submitted" := by
  cases hds : db.deals with
  | nil => rw [hds] at hh; exact absurd hh (by simp)
  | cons h0 drows =>
    rw [hds] at hh
    simp at hh
    subst hh
    obtain ⟨cust, dbc, hc, hcdeals⟩ := createOrFindCustomer_isSome db
      ⟨r.companyName, r.domain, r.customerLegalName, r.customerIndustry,
       r.customerLocation⟩ hch
    have hauxnone : findRowAux dealsHeader 9 drows r.companyName 2 = none := by
      rw [findRowAux_eq_none_iff]
      intro row hrow
      exact hnoexact row (by rw [hds]; simpa using hrow)
    have hfind : findRowByValue ((dealsHeader :: drows) ++
        [newDealRow dbc.fresh (getField cust.1 "id") r user])
        "company_name" r.companyName =
        some (toRecord dealsHeader
          (newDealRow dbc.fresh (getField cust.1 "id") r user),
         2 + drows.length) :=
      findRowByValue_append_match_gen dealsHeader drows _ "company_name"
        r.companyName 9 idxOfN_deals_company hauxnone rfl
    unfold createDeal
    rw [if_neg (by simp [h1, h2, h3, h4, h5]), if_neg (by simp [h6])]
    dsimp only
    rw [if_neg (by rw [hdup]; exact Bool.false_ne_true), hc]
    dsimp only
    rw [hcdeals, hds, hfind]
    dsimp only
    rw [getField_toRecord_deals_id]
    exact ⟨newDealRow dbc.fresh (getField cust.1 "id") r user, _, rfl,
      rfl, rfl⟩

/-- A fresh submission for a company not present in `exDB`. -/
def c7WitnessReq : DealRequest :=
  { exReq with
    companyName := "Bolt"
    domain := "bolt.io" }

theorem c7_submit_id_witness :
    ∃ newRow db',
      createDeal exDB c7WitnessReq none =
        (.success (cellD newRow 0)
          (getEstimatedApprovalTime "600000"), db') ∧
      db'.deals = exDB.deals ++ [newRow] ∧
      cellD newRow 4 = "submitted" :=
  c7_submit_returns_first_exact_name_match_id exDB c7WitnessReq none rfl rfl
    (by decide) (by decide) (by decide) (by decide) (by decide) (by decide)
    (by decide) (by decide)

theorem idx_deals_status' : idxOf dealsHeader "status" = ((4 : Nat) : Int) := by
  decide

theorem idx_deals_approved_by' :
    idxOf dealsHeader "approved_by" = ((24 : Nat) : Int) := by decide

theorem idx_deals_approved_at' :
    idxOf dealsHeader "approved_at" = ((25 : Nat) : Int) := by decide

theorem idx_deals_rejection_reason' :
    idxOf dealsHeader "rejection_reason" = ((28 : Nat) : Int) := by decide

theorem approveRoute_not_submitted (db : DB) (u : AuthUser)
    (dealId approverName : String) (hadm : requireAdmin u.email = true)
    (rec : Rcd) (p : Nat)
    (hf : findRowByValue db.deals "id" dealId = some (rec, p))
    (hs : getField rec "status" ≠ "submitted") :
    approveRoute db u dealId approverName =
      (.invalidTransition (getField rec "status"), db) := by
  unfold approveRoute
  rw [if_neg (by simp [hadm]), hf]
  dsimp only
  rw [if_pos hs]

theorem approveRoute_first_eq (db : DB) (u : AuthUser)
    (dealId approverName : String) (hadm : requireAdmin u.email = true)
    (rec : Rcd) (p : Nat)
    (hf : findRowByValue db.deals "id" dealId = some (rec, p))
    (hs : getField rec "status" = "submitted") (hp : p ≠ 0) :
    approveRoute db u dealId approverName =
      (.success,
       { db with
         deals := updateRowAt db.deals p
           (setCell (setCell (setCell (db.deals.getD (p - 1) [])
             (idxOf (db.deals.headD []) "status") "approved")
             (idxOf (db.deals.headD []) "approved_by")
             (if approverName = "" then u.email else approverName))
             (idxOf (db.deals.headD []) "approved_at") (tsOf db.fresh)),
         auditLog := db.auditLog ++ [[genId (db.fresh + 1), dealId, u.email,
           "approved", tsOf (db.fresh + 2),
           "Deal approved by " ++
             (if approverName = "" then u.email else approverName)]],
         fresh := db.fresh + 3 }) := by
  unfold approveRoute
  rw [if_neg (by simp [hadm]), hf]
  dsimp only
  rw [if_neg (by simp [hs]), if_neg hp]

/-- C2: Approve requires current status `submitted` and fails with
`InvalidTransition` otherwise; consequently, after a successful Approve,
a second Approve of the same deal id fails with
`InvalidTransition "approved"` and returns the store unchanged — the deal
row keeps all its fields and no second audit-log entry is appended. -/
theorem c2_approve_twice_second_invalid_transition (db : DB) (u : AuthUser)
    (dealId a1 a2 : String)
    (hh : db.deals.head? = some dealsHeader)
    (h1 : (approveRoute db u dealId a1).1 = .success) :
    approveRoute (approveRoute db u dealId a1).2 u dealId a2 =
      (.invalidTransition "approved", (approveRoute db u dealId a1).2) := by
  cases hds : db.deals with
  | nil => rw [hds] at hh; exact absurd hh (by simp)
  | cons h0 drows =>
  rw [hds] at hh
  simp at hh
  subst hh
  cases hadm : requireAdmin u.email with
  | false =>
    unfold approveRoute at h1
    rw [hadm] at h1
    simp at h1
  | true =>
  cases hf : findRowByValue db.deals "id" dealId with
  | none =>
    unfold approveRoute at h1
    rw [if_neg (by simp [hadm]), hf] at h1
    simp at h1
  | some dealp =>
  obtain ⟨rec, p⟩ := dealp
  by_cases hs : getField rec "status" = "submitted"
  case neg =>
    rw [approveRoute_not_submitted db u dealId a1 hadm rec p hf hs] at h1
    simp at h1
  case pos =>
  by_cases hp : p = 0
  case pos =>
    unfold approveRoute at h1
    rw [if_neg (by simp [hadm]), hf] at h1
    dsimp only at h1
    rw [if_neg (by simp [hs]), if_pos hp] at h1
    simp at h1
  case neg =>
  -- facts from the first find
  have hf' := hf
  rw [hds, findRowByValue_cons] at hf'
  simp only [idxOfN_deals_id] at hf'
  obtain ⟨j, hj, hpj, hcell, hrec, hfirst⟩ :=
    findRowAux_eq_some dealsHeader 0 drows dealId 2 rec p hf'
  have hp1 : p - 1 = j + 1 := by omega
  have hp2 : p - 2 = j := by omega
  -- the updated row
  have e1 := approveRoute_first_eq db u dealId a1 hadm rec p hf hs hp
  have f1 : (approveRoute db u dealId a1).2.deals =
      dealsHeader :: drows.set j
        (setCell (setCell (setCell (drows.getD j [])
          ((4 : Nat) : Int) "approved")
          ((24 : Nat) : Int) (if a1 = "" then u.email else a1))
          ((25 : Nat) : Int) (tsOf db.fresh)) := by
    rw [e1]
    dsimp only
    rw [hds]
    simp only [List.headD_cons, idx_deals_status', idx_deals_approved_by',
      idx_deals_approved_at']
    rw [hp1, List.getD_cons_succ]
    unfold updateRowAt
    rw [hp1, List.set_cons_succ]
  -- cells of the updated row
  have hlen0 : 0 < (drows.getD j []).length := by
    unfold cellAt at hcell
    rcases List.get?_eq_some.mp hcell with ⟨hlt, _⟩
    exact hlt
  have hA : cellAt (setCell (setCell (setCell (drows.getD j [])
      ((4 : Nat) : Int) "approved")
      ((24 : Nat) : Int) (if a1 = "" then u.email else a1))
      ((25 : Nat) : Int) (tsOf db.fresh)) 0 = some dealId := by
    rw [cellAt_setCell_of_lt _ _ _ _
      (lt_of_lt_of_le (lt_of_lt_of_le hlen0 (length_le_setCell _ _ _))
        (length_le_setCell _ _ _)) (by decide)]
    rw [cellAt_setCell_of_lt _ _ _ _
      (lt_of_lt_of_le hlen0 (length_le_setCell _ _ _)) (by decide)]
    rw [cellAt_setCell_of_lt _ _ _ _ hlen0 (by decide)]
    exact hcell
  have hB : cellD (setCell (setCell (setCell (drows.getD j [])
      ((4 : Nat) : Int) "approved")
      ((24 : Nat) : Int) (if a1 = "" then u.email else a1))
      ((25 : Nat) : Int) (tsOf db.fresh)) 4 = "approved" := by
    rw [cellD_setCell_other _ _ _ _ (by decide),
        cellD_setCell_other _ _ _ _ (by decide),
        cellD_setCell_self]
  -- the second find hits the updated row
  have hf2 : findRowByValue (approveRoute db u dealId a1).2.deals "id" dealId =
      some (toRecord dealsHeader
        (setCell (setCell (setCell (drows.getD j [])
          ((4 : Nat) : Int) "approved")
          ((24 : Nat) : Int) (if a1 = "" then u.email else a1))
          ((25 : Nat) : Int) (tsOf db.fresh)), p) := by
    rw [f1, findRowByValue_cons]
    simp only [idxOfN_deals_id]
    have := findRowAux_set_match dealsHeader 0 drows dealId 2 rec p _ hf' hA
    rwa [hp2] at this
  have hgf : getField (toRecord dealsHeader
      (setCell (setCell (setCell (drows.getD j [])
        ((4 : Nat) : Int) "approved")
        ((24 : Nat) : Int) (if a1 = "" then u.email else a1))
        ((25 : Nat) : Int) (tsOf db.fresh))) "status" = "approved" := by
    rw [getField_toRecord_deals_status]
    exact hB
  have h2 := approveRoute_not_submitted (approveRoute db u dealId a1).2 u
    dealId a2 hadm _ p hf2 (by rw [hgf]; decide)
  rwa [hgf] at h2

theorem c2_approve_twice_witness :
    approveRoute (approveRoute exDB exAdmin "ID_0" "").2 exAdmin "ID_0" "" =
      (.invalidTransition "approved",
       (approveRoute exDB exAdmin "ID_0" "").2) :=
  c2_approve_twice_second_invalid_transition exDB exAdmin "ID_0" "" "" rfl
    (by decide)

theorem newDealRow_status (f : Nat) (cid : String) (r : DealRequest)
    (user : Option AuthUser) : cellD (newDealRow f cid r user) 4 = "submitted" := rfl

theorem newDealRow_approved_by (f : Nat) (cid : String) (r : DealRequest)
    (user : Option AuthUser) : cellD (newDealRow f cid r user) 24 = "" := rfl

theorem newDealRow_approved_at (f : Nat) (cid : String) (r : DealRequest)
    (user : Option AuthUser) : cellD (newDealRow f cid r user) 25 = "" := rfl

theorem newDealRow_rejection_reason (f : Nat) (cid : String) (r : DealRequest)
    (user : Option AuthUser) : cellD (newDealRow f cid r user) 28 = "" := rfl

theorem createOrFindCustomer_deals (db : DB) (c : CustData) :
    (createOrFindCustomer db c).2.deals = db.deals := by
  unfold createOrFindCustomer
  cases h : findRowByValue db.customers "domain" c.domain <;> simp [h]

theorem createDeal_deals_cases (db : DB) (r : DealRequest)
    (user : Option AuthUser) :
    (createDeal db r user).2.deals = db.deals ∨
    ∃ f cid, (createDeal db r user).2.deals =
      db.deals ++ [newDealRow f cid r user] := by
  unfold createDeal
  split
  · exact Or.inl rfl
  · split
    · exact Or.inl rfl
    · dsimp only
      split
      · exact Or.inl rfl
      · cases hcc : createOrFindCustomer db
          ⟨r.companyName, r.domain, r.customerLegalName, r.customerIndustry,
           r.customerLocation⟩ with
        | mk ocust dbc =>
          have hdd : dbc.deals = db.deals := by
            have := createOrFindCustomer_deals db
              ⟨r.companyName, r.domain, r.customerLegalName,
               r.customerIndustry, r.customerLocation⟩
            rwa [hcc] at this
          cases ocust with
          | none => simp [hcc, hdd]
          | some cust =>
            dsimp only
            cases hff : findRowByValue
                (dbc.deals ++ [newDealRow dbc.fresh (getField cust.1 "id") r user])
                "company_name" r.companyName with
            | none =>
              exact Or.inr ⟨dbc.fresh, getField cust.1 "id", by
                dsimp only
                rw [hdd]⟩
            | some cd =>
              exact Or.inr ⟨dbc.fresh, getField cust.1 "id", by
                dsimp only
                rw [hdd]⟩

theorem rejectRoute_not_submitted (db : DB) (u : AuthUser)
    (dealId approverName reason : String)
    (hadm : requireAdmin u.email = true)
    (hr : ¬(reason = "" ∨ trimStr reason = ""))
    (rec : Rcd) (p : Nat)
    (hf : findRowByValue db.deals "id" dealId = some (rec, p))
    (hs : getField rec "status" ≠ "submitted") :
    rejectRoute db u dealId approverName reason =
      (.invalidTransition (getField rec "status"), db) := by
  unfold rejectRoute
  rw [if_neg (by simp [hadm]), if_neg hr, hf]
  dsimp only
  rw [if_pos hs]

theorem rejectRoute_first_eq (db : DB) (u : AuthUser)
    (dealId approverName reason : String)
    (hadm : requireAdmin u.email = true)
    (hr : ¬(reason = "" ∨ trimStr reason = ""))
    (rec : Rcd) (p : Nat)
    (hf : findRowByValue db.deals "id" dealId = some (rec, p))
    (hs : getField rec "status" = "submitted") (hp : p ≠ 0) :
    rejectRoute db u dealId approverName reason =
      (.success,
       { db with
         deals := updateRowAt db.deals p
           (setCell (setCell (setCell (setCell (db.deals.getD (p - 1) [])
             (idxOf (db.deals.headD []) "status") "rejected")
             (idxOf (db.deals.headD []) "approved_by")
             (if approverName = "" then u.email else approverName))
             (idxOf (db.deals.headD []) "approved_at") (tsOf db.fresh))
             (idxOf (db.deals.headD []) "rejection_reason") (trimStr reason)),
         auditLog := db.auditLog ++ [[genId (db.fresh + 1), dealId, u.email,
           "rejected", tsOf (db.fresh + 2),
           "Deal rejected by " ++
             (if approverName = "" then u.email else approverName) ++ ": " ++
             reason]],
         fresh := db.fresh + 3 }) := by
  unfold rejectRoute
  rw [if_neg (by simp [hadm]), if_neg hr, hf]
  dsimp only
  rw [if_neg (by simp [hs]), if_neg hp]

theorem approveRoute_deals_cases (db : DB) (u : AuthUser)
    (dealId approverName : String)
    (hh : db.deals.head? = some dealsHeader) :
    (approveRoute db u dealId approverName).2.deals = db.deals ∨
    ∃ q row, 1 ≤ q ∧
      (approveRoute db u dealId approverName).2.deals = db.deals.set q row ∧
      cellD row 4 = "approved" := by
  cases hds : db.deals with
  | nil => rw [hds] at hh; exact absurd hh (by simp)
  | cons h0 drows =>
  rw [hds] at hh
  simp at hh
  subst hh
  cases hadm : requireAdmin u.email with
  | false =>
    refine Or.inl ?_
    unfold approveRoute
    rw [hadm, if_pos rfl]
    exact hds
  | true =>
  cases hf : findRowByValue db.deals "id" dealId with
  | none =>
    refine Or.inl ?_
    unfold approveRoute
    rw [if_neg (by simp [hadm]), hf]
    exact hds
  | some dealp =>
  obtain ⟨rec, p⟩ := dealp
  by_cases hs : getField rec "status" = "submitted"
  case neg =>
    rw [approveRoute_not_submitted db u dealId approverName hadm rec p hf hs]
    exact Or.inl hds
  case pos =>
  by_cases hp : p = 0
  case pos =>
    refine Or.inl ?_
    unfold approveRoute
    rw [if_neg (by simp [hadm]), hf]
    dsimp only
    rw [if_neg (by simp [hs]), if_pos hp]
    exact hds
  case neg =>
  have hge2 := findRowByValue_pos_ge2 db.deals "id" dealId rec p hf
  refine Or.inr ⟨p - 1, setCell (setCell (setCell (db.deals.getD (p - 1) [])
    ((4 : Nat) : Int) "approved")
    ((24 : Nat) : Int) (if approverName = "" then u.email else approverName))
    ((25 : Nat) : Int) (tsOf db.fresh), by omega, ?_, ?_⟩
  · rw [approveRoute_first_eq db u dealId approverName hadm rec p hf hs hp]
    dsimp only
    rw [hds]
    simp only [List.headD_cons, idx_deals_status', idx_deals_approved_by',
      idx_deals_approved_at']
    rfl
  · rw [cellD_setCell_other _ _ _ _ (by decide),
        cellD_setCell_other _ _ _ _ (by decide),
        cellD_setCell_self]

theorem rejectRoute_deals_cases (db : DB) (u : AuthUser)
    (dealId approverName reason : String)
    (hh : db.deals.head? = some dealsHeader) :
    (rejectRoute db u dealId approverName reason).2.deals = db.deals ∨
    ∃ q row, 1 ≤ q ∧
      (rejectRoute db u dealId approverName reason).2.deals =
        db.deals.set q row ∧
      cellD row 4 = "rejected" := by
  cases hds : db.deals with
  | nil => rw [hds] at hh; exact absurd hh (by simp)
  | cons h0 drows =>
  rw [hds] at hh
  simp at hh
  subst hh
  cases hadm : requireAdmin u.email with
  | false =>
    refine Or.inl ?_
    unfold rejectRoute
    rw [hadm, if_pos rfl]
    exact hds
  | true =>
  by_cases hr : reason = "" ∨ trimStr reason = ""
  case pos =>
    rw [rejectRoute_blank_eq db u dealId approverName reason hadm hr]
    exact Or.inl hds
  case neg =>
  cases hf : findRowByValue db.deals "id" dealId with
  | none =>
    refine Or.inl ?_
    unfold rejectRoute
    rw [if_neg (by simp [hadm]), if_neg hr, hf]
    exact hds
  | some dealp =>
  obtain ⟨rec, p⟩ := dealp
  by_cases hs : getField rec "status" = "submitted"
  case neg =>
    rw [rejectRoute_not_submitted db u dealId approverName reason hadm hr
      rec p hf hs]
    exact Or.inl hds
  case pos =>
  by_cases hp : p = 0
  case pos =>
    refine Or.inl ?_
    unfold rejectRoute
    rw [if_neg (by simp [hadm]), if_neg hr, hf]
    dsimp only
    rw [if_neg (by simp [hs]), if_pos hp]
    exact hds
  case neg =>
  have hge2 := findRowByValue_pos_ge2 db.deals "id" dealId rec p hf
  refine Or.inr ⟨p - 1, setCell (setCell (setCell (setCell
    (db.deals.getD (p - 1) [])
    ((4 : Nat) : Int) "rejected")
    ((24 : Nat) : Int) (if approverName = "" then u.email else approverName))
    ((25 : Nat) : Int) (tsOf db.fresh))
    ((28 : Nat) : Int) (trimStr reason), by omega, ?_, ?_⟩
  · rw [rejectRoute_first_eq db u dealId approverName reason hadm hr rec p
      hf hs hp]
    dsimp only
    rw [hds]
    simp only [List.headD_cons, idx_deals_status', idx_deals_approved_by',
      idx_deals_approved_at', idx_deals_rejection_reason']
    rfl
  · rw [cellD_setCell_other _ _ _ _ (by decide),
        cellD_setCell_other _ _ _ _ (by decide),
        cellD_setCell_other _ _ _ _ (by decide),
        cellD_setCell_self]

/-- The Deals-sheet invariant: the header row is intact, and every data
row with status `submitted` has empty `approved_by` (col 24),
`approved_at` (col 25) and `rejection_reason` (col 28) cells. -/
def DealsInv (db : DB) : Prop :=
  db.deals.head? = some dealsHeader ∧
  ∀ row ∈ db.deals.tail, cellD row 4 = "submitted" →
    cellD row 24 = "" ∧ cellD row 25 = "" ∧ cellD row 28 = ""

theorem DealsInv_of_deals_eq (db db' : DB) (h : DealsInv db)
    (he : db'.deals = db.deals) : DealsInv db' := by
  unfold DealsInv at h ⊢
  rw [he]
  exact h

theorem DealsInv_step (db : DB) (op : Op) (h : DealsInv db) :
    DealsInv (stepOp db op) := by
  obtain ⟨hh, hrows⟩ := h
  cases hds : db.deals with
  | nil => rw [hds] at hh; exact absurd hh (by simp)
  | cons h0 t =>
  rw [hds] at hh
  simp at hh
  subst hh
  cases op with
  | submit r user =>
    cases createDeal_deals_cases db r user with
    | inl he => exact DealsInv_of_deals_eq db _ ⟨by rw [hds]; rfl, hrows⟩ he
    | inr hex =>
      obtain ⟨f, cid, he⟩ := hex
      constructor
      · show (createDeal db r user).2.deals.head? = _
        rw [he, hds]
        rfl
      · show ∀ row ∈ (createDeal db r user).2.deals.tail, _
        rw [he, hds]
        intro row hmem hst
        rcases (by simpa using hmem :
            row ∈ t ∨ row = newDealRow f cid r user) with hold | hnew
        · exact hrows row (by rw [hds]; simpa using hold) hst
        · subst hnew
          exact ⟨newDealRow_approved_by f cid r user,
            newDealRow_approved_at f cid r user,
            newDealRow_rejection_reason f cid r user⟩
  | approve u dealId a =>
    cases approveRoute_deals_cases db u dealId a (by rw [hds]; rfl) with
    | inl he => exact DealsInv_of_deals_eq db _ ⟨by rw [hds]; rfl, hrows⟩ he
    | inr hex =>
      obtain ⟨q, row, hq, he, hcell⟩ := hex
      constructor
      · show (approveRoute db u dealId a).2.deals.head? = _
        rw [he, head?_set_of_pos _ _ _ hq, hds]
        rfl
      · show ∀ row' ∈ (approveRoute db u dealId a).2.deals.tail, _
        rw [he, hds]
        obtain ⟨n, hn⟩ : ∃ n, q = n + 1 := ⟨q - 1, by omega⟩
        subst hn
        rw [List.set_cons_succ]
        intro row' hmem hst
        rcases List.mem_or_eq_of_mem_set (by simpa using hmem) with hold | hnew
        · exact hrows row' (by rw [hds]; simpa using hold) hst
        · subst hnew
          rw [hcell] at hst
          exact absurd hst (by decide)
  | reject u dealId a reason =>
    cases rejectRoute_deals_cases db u dealId a reason (by rw [hds]; rfl) with
    | inl he => exact DealsInv_of_deals_eq db _ ⟨by rw [hds]; rfl, hrows⟩ he
    | inr hex =>
      obtain ⟨q, row, hq, he, hcell⟩ := hex
      constructor
      · show (rejectRoute db u dealId a reason).2.deals.head? = _
        rw [he, head?_set_of_pos _ _ _ hq, hds]
        rfl
      · show ∀ row' ∈ (rejectRoute db u dealId a reason).2.deals.tail, _
        rw [he, hds]
        obtain ⟨n, hn⟩ : ∃ n, q = n + 1 := ⟨q - 1, by omega⟩
        subst hn
        rw [List.set_cons_succ]
        intro row' hmem hst
        rcases List.mem_or_eq_of_mem_set (by simpa using hmem) with hold | hnew
        · exact hrows row' (by rw [hds]; simpa using hold) hst
        · subst hnew
          rw [hcell] at hst
          exact absurd hst (by decide)

theorem DealsInv_runOps (db : DB) (ops : List Op) (h : DealsInv db) :
    DealsInv (runOps db ops) := by
  induction ops generalizing db with
  | nil => exact h
  | cons op t ih => exact ih (stepOp db op) (DealsInv_step db op h)

/-- C9: in every store state reachable from the initial store (all sheets
holding just their header row) by Submit, Approve, and Reject requests,
every Deals data row whose `status` field is `submitted` has empty
`approved_by`, `approved_at`, and `rejection_reason` fields: Submit
appends rows with these fields empty and status `submitted`, and
Approve/Reject fill them only in the same row write that moves the status
to a terminal value. -/
theorem c9_submitted_deals_have_empty_terminal_fields (ops : List Op) :
    (runOps initDB ops).deals.head? = some dealsHeader ∧
    ∀ row ∈ (runOps initDB ops).deals.tail,
      cellI row (idxOf dealsHeader "status") = "submitted" →
      cellI row (idxOf dealsHeader "approved_by") = "" ∧
      cellI row (idxOf dealsHeader "approved_at") = "" ∧
      cellI row (idxOf dealsHeader "rejection_reason") = "" := by
  have hinv := DealsInv_runOps initDB ops
    ⟨rfl, fun row hmem => absurd hmem (by simp [initDB])⟩
  obtain ⟨hh, hrows⟩ := hinv
  refine ⟨hh, ?_⟩
  intro row hmem hst
  simp only [idx_deals_status', idx_deals_approved_by', idx_deals_approved_at',
    idx_deals_rejection_reason', cellI_natCast] at hst ⊢
  exact hrows row hmem hst

theorem c9_submitted_deals_witness :
    cellI (newDealRow 3 "ID_0" exReq none) (idxOf dealsHeader "approved_by")
      = "" ∧
    cellI (newDealRow 3 "ID_0" exReq none) (idxOf dealsHeader "approved_at")
      = "" ∧
    cellI (newDealRow 3 "ID_0" exReq none)
      (idxOf dealsHeader "rejection_reason") = "" :=
  (c9_submitted_deals_have_empty_terminal_fields [Op.submit exReq none]).2
    (newDealRow 3 "ID_0" exReq none) (by decide) (by decide)

end DealReg
